import Mathlib

/-
  Verification of the disposable-blocklist core of the email-verifier
  repository.

  The embedding models:
  - pkg/validator/disposable_blocklist.go : DisposableBlocklist
    (sync.Once-guarded Load, IsDisposable) and the DisposableCheckHandler
    re-check logic with extractDomain;
  - the ExternalDisposableChecker (LoadDisposableDomains, IsDisposable);
  - proxy-validator-service/server.js : loadDisposableDomains,
    getDomainFromEmail and the /proxy-validate disposable re-check;
  - the startup wiring of main.go around the first blocklist load.

  Go/JS strings are modelled as lists of characters; the HTTP fetch of the
  blocklist is modelled by an explicit FetchResult value (network error,
  status code, body lines, body-read error), with the body already split
  into lines as bufio.Scanner and String.prototype.split produce them.
-/

namespace EmailVerifier

/-- A Go/JS string, modelled as its list of characters. -/
abbrev Str := List Char

/-- Models strings.ToLower / String.prototype.toLowerCase on the ASCII
alphabet that domain names use. -/
def toLowerStr (s : Str) : Str := s.map Char.toLower

/-- The whitespace characters trimmed from blocklist lines. -/
def isSpaceChar (c : Char) : Bool :=
  c == ' ' || c == '\t' || c == '\n' || c == '\r'

/-- Models strings.TrimSpace / String.prototype.trim on ASCII whitespace. -/
def trimSpace (s : Str) : Str :=
  ((s.dropWhile isSpaceChar).reverse.dropWhile isSpaceChar).reverse

/-- Models strings.HasPrefix(s, "#") / String.prototype.startsWith on "#". -/
def startsWithHash : Str → Bool
  | [] => false
  | c :: _ => decide (c = '#')

/-- The outcome of the HTTP GET of the blocklist URL, as observed by a
loader: a transport failure, or a response with a status code, the lines
of its body, and whether reading the body failed (scanner.Err / a stream
error). -/
inductive FetchResult where
  | netError : FetchResult
  | response (statusCode : Nat) (lines : List Str) (readError : Bool) : FetchResult
deriving DecidableEq, Repr

/-- Whether a fetch attempt fails for any of the three reasons the loaders
check: transport error, non-200 status, body-read error. -/
def FetchResult.failed : FetchResult → Bool
  | .netError => true
  | .response code _ readError => code ≠ 200 || readError

/-- The error values a loader can return. -/
inductive LoadError where
  | fetchFailed : LoadError
  | badStatus (code : Nat) : LoadError
  | readFailed : LoadError
deriving DecidableEq, Repr

/-- The lines of a fetched body that every loader keeps: trimmed, and then
neither empty nor starting with the comment marker. Each loader stores
these (the ExternalDisposableChecker additionally lower-cases them). -/
def keptLines (lines : List Str) : List Str :=
  (lines.map trimSpace).filter (fun d => !d.isEmpty && !startsWithHash d)

/- ===== ExternalDisposableChecker (src/unnamed/part_001) ===== -/

/-- The state of an ExternalDisposableChecker: its disposableDomains map,
modelled as the list of its keys. The lastUpdated timestamp carries no
logic and is not modelled. -/
structure ExternalDisposableChecker where
  disposableDomains : List Str
deriving DecidableEq, Repr

/-- NewExternalDisposableChecker: empty domain set. -/
def NewExternalDisposableChecker : ExternalDisposableChecker :=
  { disposableDomains := [] }

/-- LoadDisposableDomains: on transport error, non-200 status or a body-read
error it returns the error before touching the map; on success it builds
newDomains from the kept lines, lower-cased, and publishes it under the
mutex. -/
def ExternalDisposableChecker.LoadDisposableDomains
    (c : ExternalDisposableChecker) (f : FetchResult) :
    ExternalDisposableChecker × Option LoadError :=
  match f with
  | .netError => (c, some LoadError.fetchFailed)
  | .response code lines readError =>
    if code ≠ 200 then (c, some (LoadError.badStatus code))
    else if readError then (c, some LoadError.readFailed)
    else ({ disposableDomains := (keptLines lines).map toLowerStr }, none)

/-- IsDisposable: membership of the lower-cased domain in the current map. -/
def ExternalDisposableChecker.IsDisposable
    (c : ExternalDisposableChecker) (domain : Str) : Bool :=
  decide (toLowerStr domain ∈ c.disposableDomains)

/- ===== DisposableBlocklist (src/pkg/validator/disposable_blocklist.go) ===== -/

/-- The state of a DisposableBlocklist: the domains map (as the list of its
keys) and whether the sync.Once has already run. -/
structure DisposableBlocklist where
  domains : List Str
  onceDone : Bool
deriving DecidableEq, Repr

/-- NewDisposableBlocklist: empty map, once not yet consumed. -/
def NewDisposableBlocklist : DisposableBlocklist :=
  { domains := [], onceDone := false }

/-- Load: the fetch runs inside sync.Once, so it executes only when the once
has not fired yet, and any completed execution (error or not) consumes the
once. The error variable is local to each call, so a call that skips the
closure returns nil. On success the kept lines are stored verbatim (no
lower-casing) and published under the mutex; on any error the map is left
untouched. The Bool in the result records whether a fetch was performed. -/
def DisposableBlocklist.Load (db : DisposableBlocklist) (f : FetchResult) :
    DisposableBlocklist × Option LoadError × Bool :=
  if db.onceDone then (db, none, false)
  else
    match f with
    | .netError => ({ db with onceDone := true }, some LoadError.fetchFailed, true)
    | .response code lines readError =>
      if code ≠ 200 then ({ db with onceDone := true }, some (LoadError.badStatus code), true)
      else if readError then ({ db with onceDone := true }, some LoadError.readFailed, true)
      else ({ domains := keptLines lines, onceDone := true }, none, true)

/-- IsDisposable: first calls Load (whose fetch needs a FetchResult in this
model); on a load error returns false, otherwise looks up the lower-cased
domain in the map. Returns the state after the embedded Load call together
with the answer. -/
def DisposableBlocklist.IsDisposable
    (db : DisposableBlocklist) (f : FetchResult) (domain : Str) :
    DisposableBlocklist × Bool :=
  match db.Load f with
  | (db2, some _, _) => (db2, false)
  | (db2, none, _) => (db2, decide (toLowerStr domain ∈ db2.domains))

/- ===== proxy-validator-service/server.js ===== -/

/-- The proxy state: the disposableDomains Set. -/
structure ProxyState where
  disposableDomains : List Str
deriving DecidableEq, Repr

/-- loadDisposableDomains in server.js: axios rejects on transport errors,
non-2xx statuses and stream errors, and the catch block leaves the set (and
the timestamp) unchanged; on success the set becomes the trimmed lines that
are non-empty and not comments, stored verbatim (no lower-casing). -/
def loadDisposableDomainsJs (s : ProxyState) (f : FetchResult) : ProxyState :=
  match f with
  | .netError => s
  | .response code lines readError =>
    if code ≠ 200 || readError then s
    else { disposableDomains := keptLines lines }

/- ===== Domain extraction ===== -/

/-- Models strings.Split(s, "@") and String.prototype.split over a single
separator character: the fragments between occurrences of the at sign,
always one more fragment than there are at signs. -/
def splitOnAtSign : Str → List Str
  | [] => [[]]
  | c :: rest =>
    if c = '@' then [] :: splitOnAtSign rest
    else
      match splitOnAtSign rest with
      | [] => [[c]]
      | p :: ps => (c :: p) :: ps

/-- extractDomain in the DisposableCheckHandler: the part after the at sign
when the split yields exactly two parts, otherwise the empty string. -/
def extractDomain (email : Str) : Str :=
  match splitOnAtSign email with
  | [_, d] => d
  | _ => []

/-- getDomainFromEmail in server.js: the part after the at sign, lower-cased,
when the split yields exactly two parts, otherwise null. -/
def getDomainFromEmail (email : Str) : Option Str :=
  match splitOnAtSign email with
  | [_, d] => some (toLowerStr d)
  | _ => none

/- ===== Startup wiring (src/main.go) ===== -/

/-- What the process does after the first blocklist load at startup. -/
inductive StartupOutcome where
  | fatalExit : StartupOutcome
  | continueServing : StartupOutcome
deriving DecidableEq, Repr

/-- The first main variant: a non-nil error from disposableBlocklist.Load is
passed to log.Fatalf, which terminates the process; a nil error lets startup
proceed to serving. -/
def mainBlocklistStartup : Option LoadError → StartupOutcome
  | some _ => StartupOutcome.fatalExit
  | none => StartupOutcome.continueServing

/-- The second main variant: an error from
externalDisposableChecker.LoadDisposableDomains is only logged (continuing
without external disposable checks) and startup proceeds either way. -/
def mainExternalCheckerStartup : Option LoadError → StartupOutcome
  | _ => StartupOutcome.continueServing

/- ===== Validation results and the forced disposable re-check ===== -/

/-- The validation statuses of the data model. -/
inductive ValidationStatus where
  | VALID
  | INVALID_SYNTAX
  | INVALID_DOMAIN
  | DISPOSABLE
  | DISPOSABLE_BY_EXTERNAL_BLOCKLIST
  | ROLE_ACCOUNT
  | ALIAS
deriving DecidableEq, Repr

/-- A validation result: its status, the Validations.IsDisposable flag the
re-check can set, and the remaining fields (score, other flags, ...), which
the re-check never touches, abstracted as a value of an arbitrary type. -/
structure ValidationResult (α : Type) where
  status : ValidationStatus
  isDisposable : Bool
  rest : α
deriving DecidableEq, Repr

/-- The forced disposable re-check of DisposableCheckHandler.ServeHTTP: when
the pipeline status is VALID and the extracted domain is non-empty and in
the blocklist, the flag is set and the status becomes DISPOSABLE; in every
other case the result is returned as is. The blocklist call is
db.IsDisposable, whose embedded Load needs a FetchResult in this model. -/
def disposableRecheck {α : Type} (db : DisposableBlocklist) (f : FetchResult)
    (email : Str) (r : ValidationResult α) : ValidationResult α :=
  if r.status = ValidationStatus.VALID then
    let domain := extractDomain email
    if domain ≠ [] ∧ (db.IsDisposable f domain).2 = true then
      ValidationResult.mk ValidationStatus.DISPOSABLE true r.rest
    else r
  else r

/-- The /proxy-validate re-check of server.js: when the upstream status is
VALID and getDomainFromEmail yields a truthy (non-null, non-empty) domain
present in the proxy set, the flag is set and the final status becomes
DISPOSABLE_BY_EXTERNAL_BLOCKLIST; otherwise the result passes through. -/
def proxyRecheck {α : Type} (s : ProxyState) (email : Str)
    (r : ValidationResult α) : ValidationResult α :=
  if r.status = ValidationStatus.VALID then
    match getDomainFromEmail email with
    | some domain =>
      if domain ≠ [] ∧ domain ∈ s.disposableDomains then
        ValidationResult.mk ValidationStatus.DISPOSABLE_BY_EXTERNAL_BLOCKLIST true r.rest
      else r
    | none => r
  else r

/- ===== Interleaving model of the snapshot swap ===== -/

/-- A state of the refresh/reader interleaving: the published map `active`
that IsDisposable readers see, the loop-local `newDomains` under
construction, how many parsed domains have been inserted into it, and
whether the mutex-guarded publication has happened. -/
structure SwapState where
  active : List Str
  localNew : List Str
  consumed : Nat
  published : Bool
deriving DecidableEq, Repr

/-- The writer steps of a successful refresh over the final parsed domain
list `kept`: each build step inserts the next domain into the loop-local
newDomains only, and the single publish step installs the fully built list
as the active map inside the mutex-guarded assignment. Readers may observe
`active` between any two steps. -/
inductive SwapStep (kept : List Str) : SwapState → SwapState → Prop
  | build (s : SwapState) (h : s.consumed < kept.length) (hp : s.published = false) :
      SwapStep kept s
        { active := s.active, localNew := s.localNew ++ [kept.get ⟨s.consumed, h⟩],
          consumed := s.consumed + 1, published := false }
  | publish (s : SwapState) (h : s.consumed = kept.length) (hp : s.published = false) :
      SwapStep kept s
        { active := s.localNew, localNew := s.localNew,
          consumed := s.consumed, published := true }

/-- The state at the start of a refresh: the old snapshot is active, the
loop-local list is empty. -/
def initSwap (old : List Str) : SwapState :=
  { active := old, localNew := [], consumed := 0, published := false }

/-- The states reachable during a refresh that starts from the old
snapshot. -/
inductive SwapReach (kept old : List Str) : SwapState → Prop
  | init : SwapReach kept old (initSwap old)
  | step (s t : SwapState) : SwapReach kept old s → SwapStep kept s t →
      SwapReach kept old t

/- ===== Helper lemmas ===== -/

/-- Membership in the kept lines of a body: exactly the trims of body lines
that are non-empty and not comments. -/
lemma mem_keptLines_iff (lines : List Str) (d : Str) :
    d ∈ keptLines lines ↔
      ∃ l ∈ lines, trimSpace l = d ∧ d ≠ [] ∧ startsWithHash d = false := by
  unfold keptLines
  rw [List.mem_filter]
  constructor
  · rintro ⟨hmem, hp⟩
    rcases List.mem_map.mp hmem with ⟨l, hl, hEq⟩
    rcases Bool.and_eq_true_iff.mp hp with ⟨h1, h2⟩
    refine ⟨l, hl, hEq, ?_, by simpa using h2⟩
    intro hnil
    rw [hnil] at h1
    simp at h1
  · rintro ⟨l, hl, hEq, hne, hhash⟩
    refine ⟨List.mem_map.mpr ⟨l, hl, hEq⟩, ?_⟩
    have : d.isEmpty = false := by
      cases d with
      | nil => exact absurd rfl hne
      | cons c t => rfl
    rw [this, hhash]
    rfl

/-- Packing a valid scalar value into a Char and back is the identity. -/
lemma toNat_ofNat_valid (n : Nat) (h : n.isValidChar) :
    (Char.ofNat n).toNat = n := by
  rw [Char.ofNat, dif_pos h]
  rfl

/-- Lower-casing cannot produce the comment marker from any other
character. -/
lemma toLower_ne_hash (c : Char) (h : ¬ c = '#') : ¬ Char.toLower c = '#' := by
  intro hEq
  rw [Char.toLower] at hEq
  split at hEq
  next hcond =>
    have hv : Nat.isValidChar (c.toNat + 32) := Or.inl (by omega)
    have h1 : (Char.ofNat (c.toNat + 32)).toNat = c.toNat + 32 :=
      toNat_ofNat_valid _ hv
    rw [hEq] at h1
    have h2 : Char.toNat '#' = 35 := rfl
    omega
  next => exact h hEq

/-- Lower-casing a string does not change whether it starts with the
comment marker. -/
lemma startsWithHash_toLowerStr (s : Str) :
    startsWithHash (toLowerStr s) = startsWithHash s := by
  cases s with
  | nil => rfl
  | cons c t =>
    simp only [toLowerStr, List.map_cons, startsWithHash]
    by_cases h : c = '#'
    · subst h
      decide
    · simp [h, toLower_ne_hash c h]

/-- Lower-casing preserves emptiness. -/
lemma toLowerStr_eq_nil_iff (s : Str) : toLowerStr s = [] ↔ s = [] := by
  cases s <;> simp [toLowerStr]

/-- splitOnAtSign never returns the empty list. -/
lemma splitOnAtSign_ne_nil (s : Str) : splitOnAtSign s ≠ [] := by
  cases s with
  | nil => simp [splitOnAtSign]
  | cons c rest =>
    unfold splitOnAtSign
    split
    · exact List.cons_ne_nil _ _
    · split
      · exact List.cons_ne_nil _ _
      · exact List.cons_ne_nil _ _

/-- A string with no at sign splits into itself alone. -/
lemma splitOnAtSign_no_at (s : Str) (h : '@' ∉ s) : splitOnAtSign s = [s] := by
  induction s with
  | nil => rfl
  | cons c rest ih =>
    have hc : ¬ c = '@' := by
      rintro rfl
      exact h (List.mem_cons_self _ _)
    have hrest : '@' ∉ rest := fun hm => h (List.mem_cons_of_mem _ hm)
    unfold splitOnAtSign
    rw [if_neg hc, ih hrest]

/-- Splitting at the first at sign: the at-free part before it becomes the
head fragment. -/
lemma splitOnAtSign_append (a b : Str) (ha : '@' ∉ a) :
    splitOnAtSign (a ++ '@' :: b) = a :: splitOnAtSign b := by
  induction a with
  | nil => simp [splitOnAtSign]
  | cons c a2 ih =>
    have hc : ¬ c = '@' := by
      rintro rfl
      exact ha (List.mem_cons_self _ _)
    have ha2 : '@' ∉ a2 := fun hm => ha (List.mem_cons_of_mem _ hm)
    show splitOnAtSign (c :: (a2 ++ '@' :: b)) = (c :: a2) :: splitOnAtSign b
    conv_lhs => rw [splitOnAtSign]
    rw [if_neg hc, ih ha2]

/-- The split always has one more fragment than the string has at signs. -/
lemma splitOnAtSign_length (s : Str) :
    (splitOnAtSign s).length = s.count '@' + 1 := by
  induction s with
  | nil => rfl
  | cons c rest ih =>
    by_cases hc : c = '@'
    · subst hc
      unfold splitOnAtSign
      rw [if_pos rfl]
      simp [List.count_cons, ih]
    · rcases hsp : splitOnAtSign rest with _ | ⟨p, ps⟩
      · exact absurd hsp (splitOnAtSign_ne_nil rest)
      · rw [hsp] at ih
        unfold splitOnAtSign
        rw [if_neg hc, hsp]
        simp only [List.length_cons] at ih ⊢
        simp [List.count_cons, hc, ih]

/-- The invariant of the refresh interleaving: the loop-local list is the
processed part of the parsed domains, and the active map is the old
snapshot until the publish step installs the complete new one. -/
lemma swapReach_invariant (kept old : List Str) (s : SwapState)
    (h : SwapReach kept old s) :
    s.localNew = kept.take s.consumed ∧ s.consumed ≤ kept.length ∧
    (s.published = false → s.active = old) ∧
    (s.published = true → s.active = kept ∧ s.consumed = kept.length) := by
  induction h with
  | init => simp [initSwap]
  | step s t hreach hstep ih =>
    cases hstep with
    | build hlt hp =>
      refine ⟨?_, hlt, ?_, ?_⟩
      · show s.localNew ++ [kept.get ⟨s.consumed, hlt⟩] = kept.take (s.consumed + 1)
        rw [ih.1, List.get_eq_getElem]
        exact List.take_concat_get' kept s.consumed hlt
      · intro _
        exact ih.2.2.1 hp
      · intro habs
        simp at habs
    | publish hlen hp =>
      refine ⟨?_, ?_, ?_, ?_⟩
      · show s.localNew = kept.take s.consumed
        exact ih.1
      · show s.consumed ≤ kept.length
        exact ih.2.1
      · intro habs
        simp at habs
      · intro _
        constructor
        · show s.localNew = kept
          rw [ih.1, hlen, List.take_length]
        · exact hlen

/-- Membership in the lower-cased kept lines, phrased over the body
lines. -/
lemma mem_lower_keptLines_iff (lines : List Str) (d : Str) :
    d ∈ (keptLines lines).map toLowerStr ↔
      ∃ l ∈ lines, toLowerStr (trimSpace l) = d ∧ trimSpace l ≠ [] ∧
        startsWithHash (trimSpace l) = false := by
  rw [List.mem_map]
  constructor
  · rintro ⟨k, hk, hEq⟩
    rcases (mem_keptLines_iff lines k).mp hk with ⟨l, hl, hTrim, hne, hhash⟩
    refine ⟨l, hl, ?_, ?_, ?_⟩
    · rw [hTrim, hEq]
    · rw [hTrim]; exact hne
    · rw [hTrim]; exact hhash
  · rintro ⟨l, hl, hEq, hne, hhash⟩
    exact ⟨trimSpace l, (mem_keptLines_iff lines _).mpr ⟨l, hl, rfl, hne, hhash⟩, hEq⟩

/-- On any error outcome, Load only consumes the once and leaves the
domains map untouched. -/
lemma DisposableBlocklist.Load_fst_of_error
    (db : DisposableBlocklist) (f : FetchResult) (e : LoadError)
    (hfirst : db.onceDone = false) (herr : (db.Load f).2.1 = some e) :
    (db.Load f).1 = { db with onceDone := true } := by
  cases f with
  | netError => simp [DisposableBlocklist.Load, hfirst]
  | response code lines readError =>
    by_cases hc : code = 200
    · by_cases hr : readError = true
      · simp [DisposableBlocklist.Load, hfirst, hc, hr]
      · exfalso
        simp [DisposableBlocklist.Load, hfirst, hc, hr] at herr
    · simp [DisposableBlocklist.Load, hfirst, hc]

/-- Once the sync.Once has fired, Load is a no-op returning nil. -/
lemma DisposableBlocklist.Load_of_onceDone
    (db : DisposableBlocklist) (f : FetchResult) (h : db.onceDone = true) :
    db.Load f = (db, none, false) := by
  simp [DisposableBlocklist.Load, h]

/-- Once the sync.Once has fired, IsDisposable is a pure lookup. -/
lemma DisposableBlocklist.IsDisposable_of_onceDone
    (db : DisposableBlocklist) (f : FetchResult) (d : Str)
    (h : db.onceDone = true) :
    db.IsDisposable f d = (db, decide (toLowerStr d ∈ db.domains)) := by
  rw [DisposableBlocklist.IsDisposable, DisposableBlocklist.Load_of_onceDone db f h]

/- ===== Claim theorems ===== -/

/-- Claim C1: a refresh/load attempt that fails for any reason (transport
error, non-200 status, or a body-read error) reports an error and leaves the
checker state, hence the active domain set, completely unchanged, so a
domain reported disposable before the failed refresh is still reported
disposable after it; the proxy loader likewise keeps its set unchanged on a
failed fetch. -/
theorem ext_refresh_failure_preserves_snapshot
    (c : ExternalDisposableChecker) (s : ProxyState) (f : FetchResult) (d : Str)
    (hfail : f.failed = true)
    (hmem : c.IsDisposable d = true) :
    (c.LoadDisposableDomains f).1 = c ∧
    ((c.LoadDisposableDomains f).2).isSome = true ∧
    ((c.LoadDisposableDomains f).1).IsDisposable d = true ∧
    loadDisposableDomainsJs s f = s := by
  have hstate : (c.LoadDisposableDomains f).1 = c ∧
      ((c.LoadDisposableDomains f).2).isSome = true ∧
      loadDisposableDomainsJs s f = s := by
    cases f with
    | netError => exact ⟨rfl, rfl, rfl⟩
    | response code lines readError =>
      by_cases hc : code = 200
      · have hr : readError = true := by
          simpa [FetchResult.failed, hc] using hfail
        refine ⟨?_, ?_, ?_⟩ <;>
          simp [ExternalDisposableChecker.LoadDisposableDomains,
            loadDisposableDomainsJs, hc, hr]
      · refine ⟨?_, ?_, ?_⟩ <;>
          simp [ExternalDisposableChecker.LoadDisposableDomains,
            loadDisposableDomainsJs, hc]
  exact ⟨hstate.1, hstate.2.1, by rw [hstate.1]; exact hmem, hstate.2.2⟩

/-- Witness for C1: a loaded checker containing mailinator.com and a
transport-level refresh failure. -/
theorem ext_refresh_failure_preserves_snapshot_witness :
    (FetchResult.netError.failed = true ∧
      (ExternalDisposableChecker.mk [("mailinator.com").data]).IsDisposable
        (("mailinator.com").data) = true) ∧
    ((ExternalDisposableChecker.mk [("mailinator.com").data]).LoadDisposableDomains
        FetchResult.netError).1 = ExternalDisposableChecker.mk [("mailinator.com").data] ∧
    (((ExternalDisposableChecker.mk [("mailinator.com").data]).LoadDisposableDomains
        FetchResult.netError).2).isSome = true ∧
    (((ExternalDisposableChecker.mk [("mailinator.com").data]).LoadDisposableDomains
        FetchResult.netError).1).IsDisposable (("mailinator.com").data) = true ∧
    loadDisposableDomainsJs (ProxyState.mk []) FetchResult.netError = ProxyState.mk [] :=
  ⟨⟨by decide, by decide⟩,
    ext_refresh_failure_preserves_snapshot
      (ExternalDisposableChecker.mk [("mailinator.com").data]) (ProxyState.mk [])
      FetchResult.netError (("mailinator.com").data) (by decide) (by decide)⟩

/-- Claim C2 is refuted by the first main variant: when the first load of
the DisposableBlocklist fails at startup, main passes the error to
log.Fatalf, which terminates the process instead of continuing with an
empty disposable set; the second main variant does continue after a failed
LoadDisposableDomains, matching the specified behavior. -/
theorem main_fatal_on_failed_first_load :
    mainBlocklistStartup (some LoadError.fetchFailed) = StartupOutcome.fatalExit ∧
    mainBlocklistStartup (some LoadError.fetchFailed) ≠ StartupOutcome.continueServing ∧
    mainExternalCheckerStartup (some LoadError.fetchFailed) = StartupOutcome.continueServing :=
  ⟨rfl, by decide, rfl⟩

/-- Claim C5: the first Load call, when its fetch succeeds, populates the
snapshot with the parsed body; and once the once-guard has fired, every
later Load call leaves the state — in particular a populated snapshot —
entirely untouched, whatever its fetch would have produced. -/
theorem load_idempotent
    (db : DisposableBlocklist) (f : FetchResult) (lines : List Str)
    (hdone : db.onceDone = true) :
    NewDisposableBlocklist.Load (FetchResult.response 200 lines false)
      = ({ domains := keptLines lines, onceDone := true }, none, true) ∧
    (db.Load f).1 = db := by
  refine ⟨?_, ?_⟩
  · simp [DisposableBlocklist.Load, NewDisposableBlocklist]
  · rw [DisposableBlocklist.Load_of_onceDone db f hdone]

/-- Witness for C5: a populated post-first-load state and an arbitrary
later fetch outcome. -/
theorem load_idempotent_witness :
    (DisposableBlocklist.mk [("mailinator.com").data] true).onceDone = true ∧
    NewDisposableBlocklist.Load (FetchResult.response 200 [("mailinator.com").data] false)
      = ({ domains := keptLines [("mailinator.com").data], onceDone := true }, none, true) ∧
    ((DisposableBlocklist.mk [("mailinator.com").data] true).Load FetchResult.netError).1
      = DisposableBlocklist.mk [("mailinator.com").data] true :=
  ⟨by decide,
    load_idempotent (DisposableBlocklist.mk [("mailinator.com").data] true)
      FetchResult.netError [("mailinator.com").data] (by decide)⟩

/-- Claim C6: after the first Load has completed — fetch succeeded or
failed — every subsequent Load returns nil without performing any fetch and
without changing the state; a failed first load consumes the once-guard
(so it is never retried) while leaving the domains map unchanged; and the
Load call embedded in IsDisposable then reduces to a pure lookup. -/
theorem load_once_no_refetch
    (db db0 : DisposableBlocklist) (f f0 g : FetchResult) (e : LoadError) (d : Str)
    (hdone : db.onceDone = true)
    (hfirst : db0.onceDone = false) (herr : (db0.Load f0).2.1 = some e) :
    db.Load f = (db, none, false) ∧
    (db0.Load f0).1 = { db0 with onceDone := true } ∧
    db.IsDisposable g d = (db, decide (toLowerStr d ∈ db.domains)) :=
  ⟨DisposableBlocklist.Load_of_onceDone db f hdone,
    DisposableBlocklist.Load_fst_of_error db0 f0 e hfirst herr,
    DisposableBlocklist.IsDisposable_of_onceDone db g d hdone⟩

/-- Witness for C6: a consumed once-guard state, and a fresh state whose
first load fails with a transport error. -/
theorem load_once_no_refetch_witness :
    ((DisposableBlocklist.mk [] true).onceDone = true ∧
      NewDisposableBlocklist.onceDone = false ∧
      (NewDisposableBlocklist.Load FetchResult.netError).2.1 = some LoadError.fetchFailed) ∧
    (DisposableBlocklist.mk [] true).Load FetchResult.netError
      = (DisposableBlocklist.mk [] true, none, false) ∧
    (NewDisposableBlocklist.Load FetchResult.netError).1
      = { NewDisposableBlocklist with onceDone := true } ∧
    (DisposableBlocklist.mk [] true).IsDisposable FetchResult.netError (("x").data)
      = (DisposableBlocklist.mk [] true,
          decide (toLowerStr (("x").data) ∈ (DisposableBlocklist.mk [] true).domains)) :=
  ⟨⟨by decide, by decide, by decide⟩,
    load_once_no_refetch (DisposableBlocklist.mk [] true) NewDisposableBlocklist
      FetchResult.netError FetchResult.netError FetchResult.netError
      LoadError.fetchFailed (("x").data) (by decide) (by decide) (by decide)⟩

/-- Claim C9: whenever the active domain set is empty — a freshly
constructed checker, or any state in which no snapshot has been published —
IsDisposable returns false for every domain: directly for the
ExternalDisposableChecker, and for the DisposableBlocklist whose embedded
Load call either fails (false is returned at once) or leaves the lookup to
run against the still-empty map. -/
theorem isdisposable_false_on_empty
    (c : ExternalDisposableChecker) (db : DisposableBlocklist) (f : FetchResult)
    (d d2 : Str)
    (hc : c.disposableDomains = [])
    (hdb : ((db.IsDisposable f d).1).domains = []) :
    c.IsDisposable d2 = false ∧
    NewExternalDisposableChecker.IsDisposable d2 = false ∧
    (db.IsDisposable f d).2 = false := by
  refine ⟨?_, ?_, ?_⟩
  · simp [ExternalDisposableChecker.IsDisposable, hc]
  · simp [NewExternalDisposableChecker, ExternalDisposableChecker.IsDisposable]
  · unfold DisposableBlocklist.IsDisposable at hdb ⊢
    rcases hL : db.Load f with ⟨db2, err, b⟩
    rw [hL] at hdb
    cases err with
    | some e => rfl
    | none =>
      dsimp only at hdb
      simp [hdb]

/-- Witness for C9: a fresh blocklist whose embedded first load fails with
a transport error, and a fresh external checker. -/
theorem isdisposable_false_on_empty_witness :
    ((ExternalDisposableChecker.mk []).disposableDomains = [] ∧
      (((NewDisposableBlocklist.IsDisposable FetchResult.netError
        (("mailinator.com").data)).1).domains = [])) ∧
    (ExternalDisposableChecker.mk []).IsDisposable (("mailinator.com").data) = false ∧
    NewExternalDisposableChecker.IsDisposable (("mailinator.com").data) = false ∧
    (NewDisposableBlocklist.IsDisposable FetchResult.netError
      (("mailinator.com").data)).2 = false :=
  ⟨⟨by decide, by decide⟩,
    isdisposable_false_on_empty (ExternalDisposableChecker.mk []) NewDisposableBlocklist
      FetchResult.netError (("mailinator.com").data) (("mailinator.com").data)
      (by decide) (by decide)⟩

/-- Claim C4: the forced disposable re-check overwrites only a VALID
verdict and never a terminal failure: a VALID result whose address has a
non-empty domain found in the blocklist is rewritten to DISPOSABLE (the
proxy: DISPOSABLE_BY_EXTERNAL_BLOCKLIST) with the disposable flag set,
every non-VALID result passes through both re-checks unchanged, and the
untouched fields are preserved verbatim. -/
theorem disposable_recheck_overwrites_only_valid {α : Type}
    (db : DisposableBlocklist) (f : FetchResult) (s : ProxyState)
    (email : Str) (jsdom : Str) (r r2 : ValidationResult α)
    (hv : r.status = ValidationStatus.VALID)
    (hd : extractDomain email ≠ [])
    (hdisp : (db.IsDisposable f (extractDomain email)).2 = true)
    (hjs : getDomainFromEmail email = some jsdom)
    (hjne : jsdom ≠ [])
    (hjmem : jsdom ∈ s.disposableDomains)
    (hnv : r2.status ≠ ValidationStatus.VALID) :
    disposableRecheck db f email r
      = ValidationResult.mk ValidationStatus.DISPOSABLE true r.rest ∧
    proxyRecheck s email r
      = ValidationResult.mk ValidationStatus.DISPOSABLE_BY_EXTERNAL_BLOCKLIST true r.rest ∧
    disposableRecheck db f email r2 = r2 ∧
    proxyRecheck s email r2 = r2 := by
  refine ⟨?_, ?_, ?_, ?_⟩
  · simp [disposableRecheck, hv, hd, hdisp]
  · simp [proxyRecheck, hv, hjs, hjne, hjmem]
  · simp [disposableRecheck, hnv]
  · simp [proxyRecheck, hnv]

/-- Witness for C4: a VALID and an INVALID_SYNTAX result for
bob at mailinator.com against a loaded blocklist. -/
theorem disposable_recheck_overwrites_only_valid_witness :
    ((ValidationResult.mk ValidationStatus.VALID false () : ValidationResult Unit).status
        = ValidationStatus.VALID ∧
      extractDomain (("bob@mailinator.com").data) ≠ [] ∧
      ((DisposableBlocklist.mk [("mailinator.com").data] true).IsDisposable
        FetchResult.netError (extractDomain (("bob@mailinator.com").data))).2 = true ∧
      getDomainFromEmail (("bob@mailinator.com").data) = some (("mailinator.com").data) ∧
      (("mailinator.com").data : Str) ≠ [] ∧
      (("mailinator.com").data) ∈ (ProxyState.mk [("mailinator.com").data]).disposableDomains ∧
      (ValidationResult.mk ValidationStatus.INVALID_SYNTAX false () : ValidationResult Unit).status
        ≠ ValidationStatus.VALID) ∧
    disposableRecheck (DisposableBlocklist.mk [("mailinator.com").data] true)
        FetchResult.netError (("bob@mailinator.com").data)
        (ValidationResult.mk ValidationStatus.VALID false ())
      = ValidationResult.mk ValidationStatus.DISPOSABLE true () ∧
    proxyRecheck (ProxyState.mk [("mailinator.com").data]) (("bob@mailinator.com").data)
        (ValidationResult.mk ValidationStatus.VALID false ())
      = ValidationResult.mk ValidationStatus.DISPOSABLE_BY_EXTERNAL_BLOCKLIST true () ∧
    disposableRecheck (DisposableBlocklist.mk [("mailinator.com").data] true)
        FetchResult.netError (("bob@mailinator.com").data)
        (ValidationResult.mk ValidationStatus.INVALID_SYNTAX false ())
      = ValidationResult.mk ValidationStatus.INVALID_SYNTAX false () ∧
    proxyRecheck (ProxyState.mk [("mailinator.com").data]) (("bob@mailinator.com").data)
        (ValidationResult.mk ValidationStatus.INVALID_SYNTAX false ())
      = ValidationResult.mk ValidationStatus.INVALID_SYNTAX false () :=
  ⟨⟨by decide, by decide, by decide, by decide, by decide, by decide, by decide⟩,
    disposable_recheck_overwrites_only_valid
      (DisposableBlocklist.mk [("mailinator.com").data] true) FetchResult.netError
      (ProxyState.mk [("mailinator.com").data]) (("bob@mailinator.com").data)
      (("mailinator.com").data)
      (ValidationResult.mk ValidationStatus.VALID false ())
      (ValidationResult.mk ValidationStatus.INVALID_SYNTAX false ())
      (by decide) (by decide) (by decide) (by decide) (by decide) (by decide) (by decide)⟩

/-- Counterexample to claim C3: DisposableBlocklist.Load stores blocklist
lines verbatim while IsDisposable lower-cases the query, so a successfully
ingested line containing an upper-case letter is never reported disposable,
not even when queried with the exact ingested spelling. -/
theorem blocklist_lookup_not_case_insensitive :
    ("Mailinator.com").data ∈ ((NewDisposableBlocklist.Load
        (FetchResult.response 200 [("Mailinator.com").data] false)).1).domains ∧
    (((NewDisposableBlocklist.Load
        (FetchResult.response 200 [("Mailinator.com").data] false)).1).IsDisposable
        FetchResult.netError (("Mailinator.com").data)).2 = false ∧
    (((NewDisposableBlocklist.Load
        (FetchResult.response 200 [("Mailinator.com").data] false)).1).IsDisposable
        FetchResult.netError (("mailinator.com").data)).2 = false :=
  ⟨by decide, by decide, by decide⟩

/-- Claim C3 as amended: the ExternalDisposableChecker lower-cases both on
ingestion and on lookup, so every case-variant of a kept blocklist line is
reported disposable; the DisposableBlocklist lower-cases only the query, so
the same holds for it exactly when the kept line is already lower-case. -/
theorem case_insensitive_lookup_amended
    (lines : List Str) (l q : Str)
    (hl : l ∈ lines)
    (hne : trimSpace l ≠ [])
    (hhash : startsWithHash (trimSpace l) = false)
    (hq : toLowerStr q = toLowerStr (trimSpace l)) :
    ((NewExternalDisposableChecker.LoadDisposableDomains
        (FetchResult.response 200 lines false)).1).IsDisposable q = true ∧
    (toLowerStr (trimSpace l) = trimSpace l →
      (((NewDisposableBlocklist.Load (FetchResult.response 200 lines false)).1).IsDisposable
        FetchResult.netError q).2 = true) := by
  have hkept : trimSpace l ∈ keptLines lines :=
    (mem_keptLines_iff lines (trimSpace l)).mpr ⟨l, hl, rfl, hne, hhash⟩
  have hext : (NewExternalDisposableChecker.LoadDisposableDomains
      (FetchResult.response 200 lines false)).1
      = { disposableDomains := (keptLines lines).map toLowerStr } := by
    simp [ExternalDisposableChecker.LoadDisposableDomains, NewExternalDisposableChecker]
  have hload : (NewDisposableBlocklist.Load (FetchResult.response 200 lines false)).1
      = { domains := keptLines lines, onceDone := true } := by
    simp [DisposableBlocklist.Load, NewDisposableBlocklist]
  constructor
  · have hm : toLowerStr q ∈ (keptLines lines).map toLowerStr := by
      rw [hq]
      exact List.mem_map_of_mem toLowerStr hkept
    rw [hext]
    exact decide_eq_true hm
  · intro hlow
    rw [hload, DisposableBlocklist.IsDisposable_of_onceDone _ _ _ rfl]
    have hm : toLowerStr q ∈ keptLines lines := by
      rw [hq, hlow]
      exact hkept
    exact decide_eq_true hm

/-- Witness for amended C3: the kept line mailinator.com queried in upper
case, against both components. -/
theorem case_insensitive_lookup_amended_witness :
    ((("mailinator.com").data ∈ [("mailinator.com").data] ∧
      trimSpace (("mailinator.com").data) ≠ [] ∧
      startsWithHash (trimSpace (("mailinator.com").data)) = false ∧
      toLowerStr (("MAILINATOR.COM").data)
        = toLowerStr (trimSpace (("mailinator.com").data)))) ∧
    ((NewExternalDisposableChecker.LoadDisposableDomains
        (FetchResult.response 200 [("mailinator.com").data] false)).1).IsDisposable
        (("MAILINATOR.COM").data) = true ∧
    (toLowerStr (trimSpace (("mailinator.com").data)) = trimSpace (("mailinator.com").data) →
      (((NewDisposableBlocklist.Load
          (FetchResult.response 200 [("mailinator.com").data] false)).1).IsDisposable
        FetchResult.netError (("MAILINATOR.COM").data)).2 = true) :=
  ⟨⟨by decide, by decide, by decide, by decide⟩,
    case_insensitive_lookup_amended [("mailinator.com").data] (("mailinator.com").data)
      (("MAILINATOR.COM").data) (by decide) (by decide) (by decide) (by decide)⟩

/-- Counterexample to claim C7: the ExternalDisposableChecker lower-cases on
ingestion, so for the body line FOO.COM — non-empty, not a comment, and
equal to its own trim — the new snapshot does not contain the line itself;
it contains its lower-casing instead. -/
theorem ext_parse_not_verbatim :
    trimSpace (("FOO.COM").data) = ("FOO.COM").data ∧
    (("FOO.COM").data : Str) ≠ [] ∧
    startsWithHash (("FOO.COM").data) = false ∧
    ((NewExternalDisposableChecker.LoadDisposableDomains
        (FetchResult.response 200 [("FOO.COM").data] false)).1).disposableDomains
      = [("foo.com").data] ∧
    (("FOO.COM").data) ∉ ((NewExternalDisposableChecker.LoadDisposableDomains
        (FetchResult.response 200 [("FOO.COM").data] false)).1).disposableDomains :=
  ⟨by decide, by decide, by decide, by decide, by decide⟩

/-- Claim C7 as amended: after a successful fetch, the DisposableBlocklist
and the proxy store exactly the trimmed body lines that are non-empty and
not comment lines; the ExternalDisposableChecker stores exactly the
lower-casings of those lines. In all cases the empty string and strings
starting with the comment marker are never members of the new snapshot. -/
theorem parse_membership_amended (lines : List Str) (d : Str) (s : ProxyState) :
    (d ∈ ((NewDisposableBlocklist.Load (FetchResult.response 200 lines false)).1).domains
      ↔ ∃ l ∈ lines, trimSpace l = d ∧ d ≠ [] ∧ startsWithHash d = false) ∧
    (d ∈ (loadDisposableDomainsJs s (FetchResult.response 200 lines false)).disposableDomains
      ↔ ∃ l ∈ lines, trimSpace l = d ∧ d ≠ [] ∧ startsWithHash d = false) ∧
    (d ∈ ((NewExternalDisposableChecker.LoadDisposableDomains
          (FetchResult.response 200 lines false)).1).disposableDomains
      ↔ ∃ l ∈ lines, toLowerStr (trimSpace l) = d ∧ trimSpace l ≠ [] ∧
          startsWithHash (trimSpace l) = false) ∧
    [] ∉ ((NewExternalDisposableChecker.LoadDisposableDomains
        (FetchResult.response 200 lines false)).1).disposableDomains ∧
    (startsWithHash d = true → d ∉ ((NewExternalDisposableChecker.LoadDisposableDomains
        (FetchResult.response 200 lines false)).1).disposableDomains) := by
  have hload : (NewDisposableBlocklist.Load (FetchResult.response 200 lines false)).1
      = { domains := keptLines lines, onceDone := true } := by
    simp [DisposableBlocklist.Load, NewDisposableBlocklist]
  have hjs : loadDisposableDomainsJs s (FetchResult.response 200 lines false)
      = { disposableDomains := keptLines lines } := by
    simp [loadDisposableDomainsJs]
  have hext : (NewExternalDisposableChecker.LoadDisposableDomains
      (FetchResult.response 200 lines false)).1
      = { disposableDomains := (keptLines lines).map toLowerStr } := by
    simp [ExternalDisposableChecker.LoadDisposableDomains, NewExternalDisposableChecker]
  refine ⟨?_, ?_, ?_, ?_, ?_⟩
  · rw [hload]
    exact mem_keptLines_iff lines d
  · rw [hjs]
    exact mem_keptLines_iff lines d
  · rw [hext]
    exact mem_lower_keptLines_iff lines d
  · rw [hext]
    intro hmem
    rcases (mem_lower_keptLines_iff lines []).mp hmem with ⟨l, _, hEq, hne, _⟩
    exact hne ((toLowerStr_eq_nil_iff (trimSpace l)).mp hEq)
  · intro hhash
    rw [hext]
    intro hmem
    rcases (mem_lower_keptLines_iff lines d).mp hmem with ⟨l, _, hEq, _, hl3⟩
    rw [← hEq, startsWithHash_toLowerStr] at hhash
    rw [hl3] at hhash
    exact Bool.false_ne_true hhash

/-- Witness for amended C7 at a concrete body with a comment line, a blank
line, a padded line and an upper-case line. -/
theorem parse_membership_amended_witness :
    (("x.com").data ∈ ((NewDisposableBlocklist.Load (FetchResult.response 200
        [("# c").data, ("").data, (" x.com ").data, ("UP.COM").data] false)).1).domains
      ↔ ∃ l ∈ [("# c").data, ("").data, (" x.com ").data, ("UP.COM").data],
          trimSpace l = ("x.com").data ∧ ("x.com").data ≠ ([] : Str) ∧
          startsWithHash (("x.com").data) = false) ∧
    (("x.com").data ∈ (loadDisposableDomainsJs (ProxyState.mk []) (FetchResult.response 200
        [("# c").data, ("").data, (" x.com ").data, ("UP.COM").data] false)).disposableDomains
      ↔ ∃ l ∈ [("# c").data, ("").data, (" x.com ").data, ("UP.COM").data],
          trimSpace l = ("x.com").data ∧ ("x.com").data ≠ ([] : Str) ∧
          startsWithHash (("x.com").data) = false) ∧
    (("x.com").data ∈ ((NewExternalDisposableChecker.LoadDisposableDomains
          (FetchResult.response 200
            [("# c").data, ("").data, (" x.com ").data, ("UP.COM").data] false)).1).disposableDomains
      ↔ ∃ l ∈ [("# c").data, ("").data, (" x.com ").data, ("UP.COM").data],
          toLowerStr (trimSpace l) = ("x.com").data ∧ trimSpace l ≠ [] ∧
          startsWithHash (trimSpace l) = false) ∧
    [] ∉ ((NewExternalDisposableChecker.LoadDisposableDomains
        (FetchResult.response 200
          [("# c").data, ("").data, (" x.com ").data, ("UP.COM").data] false)).1).disposableDomains ∧
    (startsWithHash (("x.com").data) = true →
      ("x.com").data ∉ ((NewExternalDisposableChecker.LoadDisposableDomains
        (FetchResult.response 200
          [("# c").data, ("").data, (" x.com ").data, ("UP.COM").data] false)).1).disposableDomains) :=
  parse_membership_amended
    [("# c").data, ("").data, (" x.com ").data, ("UP.COM").data]
    (("x.com").data) (ProxyState.mk [])

/-- Counterexample to claim C8: the proxy getDomainFromEmail does not return
the substring after the at sign verbatim — it lower-cases it. -/
theorem getDomainFromEmail_lowercases :
    getDomainFromEmail (("user@EXAMPLE.com").data) = some (("example.com").data) ∧
    some (("example.com").data) ≠ some (("EXAMPLE.com").data) :=
  ⟨by decide, by decide⟩

/-- Claim C8 as amended: for every email with exactly one at sign,
extractDomain returns the substring after it and getDomainFromEmail returns
that substring lower-cased; for every string with zero or at least two at
signs, extractDomain returns the empty string and getDomainFromEmail
returns null. -/
theorem extract_domain_amended (a b s : Str)
    (ha : '@' ∉ a) (hb : '@' ∉ b)
    (hcount : s.count '@' ≠ 1) :
    extractDomain (a ++ '@' :: b) = b ∧
    getDomainFromEmail (a ++ '@' :: b) = some (toLowerStr b) ∧
    extractDomain s = [] ∧
    getDomainFromEmail s = none := by
  have h1 : splitOnAtSign (a ++ '@' :: b) = [a, b] := by
    rw [splitOnAtSign_append a b ha, splitOnAtSign_no_at b hb]
  have h2 : (splitOnAtSign s).length ≠ 2 := by
    rw [splitOnAtSign_length]
    omega
  refine ⟨?_, ?_, ?_, ?_⟩
  · simp [extractDomain, h1]
  · simp [getDomainFromEmail, h1]
  · rcases hs : splitOnAtSign s with _ | ⟨x, _ | ⟨y, _ | ⟨z, t⟩⟩⟩
    · simp [extractDomain, hs]
    · simp [extractDomain, hs]
    · rw [hs] at h2
      simp at h2
    · simp [extractDomain, hs]
  · rcases hs : splitOnAtSign s with _ | ⟨x, _ | ⟨y, _ | ⟨z, t⟩⟩⟩
    · simp [getDomainFromEmail, hs]
    · simp [getDomainFromEmail, hs]
    · rw [hs] at h2
      simp at h2
    · simp [getDomainFromEmail, hs]

/-- Witness for amended C8: one address with a single at sign and an
upper-case domain, and one string with no at sign. -/
theorem extract_domain_amended_witness :
    (('@' ∉ ("user").data) ∧ ('@' ∉ ("Gmail.com").data) ∧
      (("no.at.sign").data).count '@' ≠ 1) ∧
    extractDomain ((("user").data) ++ '@' :: (("Gmail.com").data)) = ("Gmail.com").data ∧
    getDomainFromEmail ((("user").data) ++ '@' :: (("Gmail.com").data))
      = some (toLowerStr (("Gmail.com").data)) ∧
    extractDomain (("no.at.sign").data) = [] ∧
    getDomainFromEmail (("no.at.sign").data) = none :=
  ⟨⟨by decide, by decide, by decide⟩,
    extract_domain_amended (("user").data) (("Gmail.com").data) (("no.at.sign").data)
      (by decide) (by decide) (by decide)⟩

/-- Claim C10: in the interleaving model of a successful refresh, the new
domain list is built only in the loop-local newDomains and installed by the
single publish step, so at every reachable point a concurrent reader of the
active map sees either the entire old snapshot or the entire new one, and
its IsDisposable answer is accordingly that of one of the two complete
snapshots. -/
theorem snapshot_swap_atomic (kept old : List Str) (s : SwapState) (d : Str)
    (h : SwapReach kept old s) :
    (s.active = old ∨ s.active = kept) ∧
    ((ExternalDisposableChecker.mk s.active).IsDisposable d
        = (ExternalDisposableChecker.mk old).IsDisposable d ∨
      (ExternalDisposableChecker.mk s.active).IsDisposable d
        = (ExternalDisposableChecker.mk kept).IsDisposable d) := by
  have inv := swapReach_invariant kept old s h
  have hact : s.active = old ∨ s.active = kept := by
    cases hp : s.published
    · exact Or.inl (inv.2.2.1 hp)
    · exact Or.inr (inv.2.2.2 hp).1
  refine ⟨hact, ?_⟩
  cases hact with
  | inl h1 => exact Or.inl (by rw [h1])
  | inr h1 => exact Or.inr (by rw [h1])

/-- Witness for C10: the initial state of a refresh that replaces old.com
by new.com. -/
theorem snapshot_swap_atomic_witness :
    SwapReach [("new.com").data] [("old.com").data] (initSwap [("old.com").data]) ∧
    (((initSwap [("old.com").data]).active = [("old.com").data] ∨
        (initSwap [("old.com").data]).active = [("new.com").data]) ∧
      ((ExternalDisposableChecker.mk (initSwap [("old.com").data]).active).IsDisposable
          (("old.com").data)
          = (ExternalDisposableChecker.mk [("old.com").data]).IsDisposable (("old.com").data) ∨
        (ExternalDisposableChecker.mk (initSwap [("old.com").data]).active).IsDisposable
          (("old.com").data)
          = (ExternalDisposableChecker.mk [("new.com").data]).IsDisposable (("old.com").data))) :=
  ⟨SwapReach.init,
    snapshot_swap_atomic [("new.com").data] [("old.com").data]
      (initSwap [("old.com").data]) (("old.com").data) SwapReach.init⟩

end EmailVerifier
